import Mathlib

/-!
Verification development for the native database access layer
(`src/native/src/db.rs` and `src/native/src/api.rs`).

The layer wraps an embedded analytical engine (DuckDB) behind a single
process-wide `Mutex<Option<Connection>>`.  We embed the Rust functions as
pure state transformers over an explicit state:

* `DbState` carries the mutex's poison flag, whether the lock is currently
  held, the handle slot (`Option Nat`, the identity of the installed
  connection), a fresh-connection counter, and the engine database content
  reachable through the handle.
* The embedded engine (an external dependency of the repository) is
  modelled abstractly: a table catalog for the bulk loader and index
  creator, an oracle of prepared statements for `execute_query`, and an
  oracle of catalog answers for `get_database_info`.
* Fallible Rust code (`anyhow::Result`) becomes `Except String`.
-/

set_option autoImplicit false

deriving instance DecidableEq for Except

namespace FlutterRustDb

/-! ## Engine-native cell values (`duckdb::types::ValueRef`)

`Real` carries the text that Rust's `f64::to_string()` renders for the
value: floating-point formatting is environmental, so the model carries the
default textual representation itself rather than a bit-level float. -/

inductive ValueRef where
  | Null : ValueRef
  | Integer (i : Int) : ValueRef
  | Real (text : String) : ValueRef
  | Text (bytes : List Nat) : ValueRef
  | Blob (bytes : List Nat) : ValueRef
deriving DecidableEq

/-! ## Lossy UTF-8 decoding (`String::from_utf8_lossy`)

Each maximal invalid subsequence is replaced by U+FFFD and decoding
continues at the next byte, as in Rust's implementation. -/

def replacementChar : Char := Char.ofNat 0xFFFD

def isCont (b : Nat) : Bool := 0x80 ≤ b && b ≤ 0xBF

/-- Given a lead byte, the admissible range of the first continuation byte
(the tighter ranges for 0xE0/0xED/0xF0/0xF4 reject overlong encodings and
surrogates, as in UTF-8). -/
def firstContOk (lead c : Nat) : Bool :=
  if lead = 0xE0 then 0xA0 ≤ c && c ≤ 0xBF
  else if lead = 0xED then 0x80 ≤ c && c ≤ 0x9F
  else if lead = 0xF0 then 0x90 ≤ c && c ≤ 0xBF
  else if lead = 0xF4 then 0x80 ≤ c && c ≤ 0x8F
  else isCont c

/-- Decode one scalar value (or one maximal invalid subsequence, yielding
U+FFFD) from lead byte `b` followed by `rest`; return the decoded character
and the bytes not yet consumed. -/
def utf8DecodeOne (b : Nat) (rest : List Nat) : Char × List Nat :=
  if b < 0x80 then
    (Char.ofNat b, rest)
  else if 0xC2 ≤ b && b ≤ 0xDF then
    match rest with
    | c1 :: rest1 =>
      if isCont c1 then (Char.ofNat ((b - 0xC0) * 64 + (c1 - 0x80)), rest1)
      else (replacementChar, rest)
    | [] => (replacementChar, [])
  else if 0xE0 ≤ b && b ≤ 0xEF then
    match rest with
    | c1 :: rest1 =>
      if firstContOk b c1 then
        match rest1 with
        | c2 :: rest2 =>
          if isCont c2 then
            (Char.ofNat ((b - 0xE0) * 4096 + (c1 - 0x80) * 64 + (c2 - 0x80)), rest2)
          else (replacementChar, rest1)
        | [] => (replacementChar, [])
      else (replacementChar, rest)
    | [] => (replacementChar, [])
  else if 0xF0 ≤ b && b ≤ 0xF4 then
    match rest with
    | c1 :: rest1 =>
      if firstContOk b c1 then
        match rest1 with
        | c2 :: rest2 =>
          if isCont c2 then
            match rest2 with
            | c3 :: rest3 =>
              if isCont c3 then
                (Char.ofNat ((b - 0xF0) * 262144 + (c1 - 0x80) * 4096 +
                    (c2 - 0x80) * 64 + (c3 - 0x80)), rest3)
              else (replacementChar, rest2)
            | [] => (replacementChar, [])
          else (replacementChar, rest1)
        | [] => (replacementChar, [])
      else (replacementChar, rest)
    | [] => (replacementChar, [])
  else
    (replacementChar, rest)

/-- The decode loop, structurally recursive on a step budget.  Every step
consumes at least the lead byte, so a budget of the list's length is
enough (`utf8Lossy` below supplies it). -/
def utf8LossyFuel : Nat → List Nat → List Char
  | _, [] => []
  | 0, _ :: _ => []
  | fuel + 1, b :: rest =>
    (utf8DecodeOne b rest).1 :: utf8LossyFuel fuel (utf8DecodeOne b rest).2

def utf8Lossy (l : List Nat) : List Char :=
  utf8LossyFuel l.length l

/-! ## The per-cell stringification policy of `execute_query`

`row.get_ref(i)` may fail per cell; a failed read becomes the literal
`"ERROR"` for that cell only.  `Unit` stands for the engine's opaque
per-cell access error. -/

def cellToString (r : Except Unit ValueRef) : String :=
  match r with
  | .error _ => "ERROR"
  | .ok v =>
    match v with
    | .Null => "NULL"
    | .Integer i => toString i
    | .Real t => t
    | .Text bytes => String.mk (utf8Lossy bytes)
    | .Blob bytes => "BLOB(" ++ toString bytes.length ++ ")"

/-- The body of the `query_map` closure: read cells `0 .. column_count` of
one raw row and stringify each.  `row.column_count()` in `duckdb-rs` is the
prepared statement's column count, the same count `column_names()` reports,
so the bound `n` is that shared count. -/
def rowToStrings (get : Nat → Except Unit ValueRef) (n : Nat) : List String :=
  (List.range n).map (fun i => cellToString (get i))

/-! ## Engine catalog state (external DuckDB, modelled)

The claims touch the engine only through: creating a table from a Parquet
file, counting a table's rows, and creating an index.  A table is its name,
its column (name, type) pairs, its row count and its index names. -/

structure TableState where
  name : String
  cols : List (String × String)
  nrows : Nat
  indexes : List String
deriving DecidableEq

structure EngineDb where
  tables : List TableState
deriving DecidableEq

def EngineDb.empty : EngineDb := { tables := [] }

def findTable (db : EngineDb) (tname : String) : Option TableState :=
  db.tables.find? (fun t => t.name = tname)

def hasIndexName (db : EngineDb) (iname : String) : Bool :=
  db.tables.any (fun t => t.indexes.contains iname)

/-- A Parquet file as the engine's reader sees it: a schema and a row
count.  The filesystem is an oracle from path to file. -/
structure ParquetFile where
  schema : List (String × String)
  nrows : Nat
deriving DecidableEq

/-- Engine semantics of
`CREATE TABLE <tname> AS SELECT * FROM read_parquet(<path>)`:
fails when the table name already exists or the file is absent/unreadable;
otherwise installs a fresh table with the file's schema and rows. -/
def engineCreateTableFromParquet (tname path : String)
    (fs : String → Option ParquetFile) (db : EngineDb) : Except String EngineDb :=
  match findTable db tname with
  | some _ => .error ("Table with name " ++ tname ++ " already exists")
  | none =>
    match fs path with
    | none => .error ("IO Error: No files found that match the pattern " ++ path)
    | some f =>
      .ok { tables := db.tables ++ [{ name := tname, cols := f.schema,
                                      nrows := f.nrows, indexes := [] }] }

/-- Engine semantics of `SELECT COUNT(*) FROM <tname>`. -/
def engineCountRows (tname : String) (db : EngineDb) : Except String Int :=
  match findTable db tname with
  | none => .error ("Table with name " ++ tname ++ " does not exist")
  | some t => .ok (t.nrows : Int)

/-- Engine semantics of `CREATE INDEX <iname> ON <tname> (<cname>)`:
fails when the table is absent, an index of that name already exists, or
the column is absent; otherwise records the index name on the table. -/
def engineCreateIndex (iname tname cname : String) (db : EngineDb) :
    Except String EngineDb :=
  match findTable db tname with
  | none => .error ("Table with name " ++ tname ++ " does not exist")
  | some t =>
    if hasIndexName db iname then
      .error ("Index with name " ++ iname ++ " already exists")
    else if t.cols.any (fun p => p.1 = cname) then
      .ok { tables := db.tables.map (fun u =>
              if u.name = tname then { u with indexes := u.indexes ++ [iname] }
              else u) }
    else
      .error ("Column with name " ++ cname ++ " does not exist")

/-! ## The process-wide state of `db.rs`

`DB_CONNECTION : Lazy<Mutex<Option<Connection>>>`.  `poisoned` models a
poisoned mutex (`lock()` returns `Err`), `lockHeld` tracks whether the
guard is live, `handle` is the `Option<Connection>` slot (a connection is
its numeric identity; the database content behind it is the separate `db`
field, so that replacing the slot and mutating the content through it stay
distinct), `nextConn` numbers fresh connections. -/

structure DbState where
  poisoned : Bool
  lockHeld : Bool
  handle : Option Nat
  nextConn : Nat
  db : EngineDb
deriving DecidableEq

def lockErrMsg : String := "Failed to lock database connection"

def notInitMsg : String := "Database not initialized"

/-! ## `init_database`

Locks, opens a fresh in-memory database and stores it in the slot.  The
`Connection::open_in_memory()` call is modelled as succeeding (its failure
is an out-of-resources condition of the host, not program logic).  The
`db.rs` initializer takes no path argument at all. -/

def init_database (s : DbState) : Except String String × DbState :=
  if s.poisoned then (.error lockErrMsg, s)
  else
    let s1 := { s with lockHeld := true }
    let s2 := { s1 with handle := some s1.nextConn, nextConn := s1.nextConn + 1,
                        db := EngineDb.empty }
    (.ok "DuckDB initialized successfully", { s2 with lockHeld := false })

/-- `api.rs` forwards initialization to the db layer.  The db-layer
initializer (`db.rs`) has no path parameter and always opens an in-memory
database, so the caller-supplied path cannot flow into it and is dropped
at this boundary. -/
def api_init_database (_db_path : String) (s : DbState) :
    Except String String × DbState :=
  init_database s

/-! ## `import_parquet` (bulk loader) -/

/-- Split a character list at every occurrence of `sep` (the splitter used
for path components and for the extension dot). -/
def splitOnChar (sep : Char) : List Char → List (List Char)
  | [] => [[]]
  | c :: rest =>
    match splitOnChar sep rest with
    | [] => [[c]]
    | g :: gs => if c = sep then [] :: g :: gs else (c :: g) :: gs

def intercalateChar (sep : Char) : List (List Char) → List Char
  | [] => []
  | [g] => g
  | g :: gs => g ++ sep :: intercalateChar sep gs

/-- `Path::file_name` on a Unix-style path: the last normal component. -/
def fileName (p : String) : Option String :=
  let comps := ((splitOnChar '/' p.data).map String.mk).filter
    (fun c => c ≠ "" && c ≠ ".")
  match comps.getLast? with
  | none => none
  | some last => if last = ".." then none else some last

/-- `Path::file_stem`: the file name up to (not including) its last dot,
except that a sole leading dot does not start an extension. -/
def fileStem (p : String) : Option String :=
  (fileName p).map (fun n =>
    let parts := splitOnChar '.' n.data
    if parts.length ≤ 1 then n
    else
      let st := intercalateChar '.' parts.dropLast
      if st = [] then n else String.mk st)

/-- Rust's `char::is_alphanumeric` (Unicode-aware in Rust; modelled on the
ASCII range, which is all the claims exercise). -/
def rustIsAlphanumeric (c : Char) : Bool := c.isAlphanum

/-- `file_name.replace(|c: char| !c.is_alphanumeric() && c != '_', "_")`:
a single-character pattern replaced by a single-character string is a
character-wise substitution. -/
def sanitizeChar (c : Char) : Char :=
  if !rustIsAlphanumeric c && c ≠ '_' then '_' else c

def replaceNonAlnum (s : String) : String :=
  String.mk (s.data.map sanitizeChar)

def import_parquet (fs : String → Option ParquetFile) (file_path : String)
    (s : DbState) : Except String String × DbState :=
  if s.poisoned then (.error lockErrMsg, s)
  else
    let s1 := { s with lockHeld := true }
    match s1.handle with
    | none => (.error notInitMsg, { s1 with lockHeld := false })
    | some _ =>
      match fileStem file_path with
      | none => (.error "Invalid file path", { s1 with lockHeld := false })
      | some file_name =>
        let table_name := replaceNonAlnum file_name
        match engineCreateTableFromParquet table_name file_path fs s1.db with
        | .error e => (.error e, { s1 with lockHeld := false })
        | .ok db1 =>
          match engineCountRows table_name db1 with
          | .error e => (.error e, { s1 with db := db1, lockHeld := false })
          | .ok n =>
            (.ok ("Imported " ++ toString n ++ " rows into table " ++ table_name),
             { s1 with db := db1, lockHeld := false })

/-! ## `create_index` -/

def create_index (table_name column_name : String) (s : DbState) :
    Except String String × DbState :=
  if s.poisoned then (.error lockErrMsg, s)
  else
    let s1 := { s with lockHeld := true }
    match s1.handle with
    | none => (.error notInitMsg, { s1 with lockHeld := false })
    | some _ =>
      let index_name := "idx_" ++ table_name ++ "_" ++ column_name
      match engineCreateIndex index_name table_name column_name s1.db with
      | .error e => (.error e, { s1 with lockHeld := false })
      | .ok db1 =>
        (.ok ("Created index " ++ index_name ++ " on " ++ table_name ++ "." ++
              column_name),
         { s1 with db := db1, lockHeld := false })

/-! ## `execute_query` (query/result marshaler)

Arbitrary SQL cannot be interpreted by this layer (the engine plans and
executes it), so preparation-plus-execution is an oracle: given the SQL
text and the current database content it yields either a prepare/execute
error or a prepared statement's observable output — the projected column
names and a stream of raw rows — together with the database content after
any side effects of the statement.  A raw row is either an engine stream
error (`row?` aborts the collection loop) or a per-cell getter. -/

structure Stmt where
  column_names : List String
  raw_rows : List (Except String (Nat → Except Unit ValueRef))

def Prepare : Type :=
  String → EngineDb → Except String Stmt × EngineDb

/-- The collection loop: `rows.push(row?); row_count += 1;` over the
mapped row iterator. -/
def collectRows (rs : List (Except String (Nat → Except Unit ValueRef)))
    (n : Nat) : Except String (List (List String) × Int) :=
  match rs with
  | [] => .ok ([], 0)
  | r :: rest =>
    match r with
    | .error e => .error e
    | .ok get =>
      match collectRows rest n with
      | .error e => .error e
      | .ok (acc, cnt) => .ok (rowToStrings get n :: acc, cnt + 1)

structure QueryResult where
  column_names : List String
  rows : List (List String)
  execution_time_ms : Nat
  row_count : Int
deriving DecidableEq

/-- `execution_time_ms` is wall-clock time, an environmental quantity;
the model reports 0. -/
def execute_query (prep : Prepare) (query : String) (s : DbState) :
    Except String QueryResult × DbState :=
  if s.poisoned then (.error lockErrMsg, s)
  else
    let s1 := { s with lockHeld := true }
    match s1.handle with
    | none => (.error notInitMsg, { s1 with lockHeld := false })
    | some _ =>
      match prep query s1.db with
      | (.error e, db1) => (.error e, { s1 with db := db1, lockHeld := false })
      | (.ok stmt, db1) =>
        let column_names := stmt.column_names
        match collectRows stmt.raw_rows column_names.length with
        | .error e => (.error e, { s1 with db := db1, lockHeld := false })
        | .ok (rows, row_count) =>
          (.ok { column_names := column_names, rows := rows,
                 execution_time_ms := 0, row_count := row_count },
           { s1 with db := db1, lockHeld := false })

/-! ## `get_database_info` (catalog introspector)

The snapshot issues textual catalog queries against the connection; the
engine's answers are an oracle.  The embedding also returns the list of
SQL texts prepared, in order, so that the round-trip structure is a
provable observable. -/

structure DatabaseInfo where
  table_count : Int
  row_count : List (String × Int)
  table_schemas : List (String × String)
  indices : List (String × List String)
deriving DecidableEq

/-- `HashMap::insert`: replace the entry for an existing key, else add. -/
def assocInsert {α : Type} (k : String) (v : α) :
    List (String × α) → List (String × α)
  | [] => [(k, v)]
  | (k0, v0) :: rest =>
    if k0 = k then (k, v) :: rest else (k0, v0) :: assocInsert k v rest

def assocLookup {α : Type} (k : String) : List (String × α) → Option α
  | [] => none
  | (k0, v0) :: rest => if k0 = k then some v0 else assocLookup k rest

structure IntroOracle where
  listTables : Except String (List String)
  countRows : String → Except String Int
  tableCols : String → Except String (List (String × String))
  indexList : String → Except String (List String)

def sq : String := String.mk [Char.ofNat 39]

def tablesQuery : String :=
  "SELECT name FROM sqlite_master WHERE type=" ++ sq ++ "table" ++ sq

def countQuery (t : String) : String := "SELECT COUNT(*) FROM " ++ t

def tableInfoQuery (t : String) : String := "PRAGMA table_info(" ++ t ++ ")"

def indexListQuery (t : String) : String := "PRAGMA index_list(" ++ t ++ ")"

def joinSep (sep : String) : List String → String
  | [] => ""
  | [x] => x
  | x :: xs => x ++ sep ++ joinSep sep xs

/-- `PRAGMA table_info` rows are folded to `"<name> <type>"` and joined
with `", "` (`Vec::join`). -/
def schemaString (cols : List (String × String)) : String :=
  joinSep ", " (cols.map (fun p => p.1 ++ " " ++ p.2))

/-- The per-table loop of `get_database_info`: three queries per table, in
catalog iteration order, accumulating into the maps; the first failing
sub-query aborts with its error.  Also returns the queries issued by the
loop. -/
def infoLoop (o : IntroOracle) (ts : List String) (tc : Int)
    (rc : List (String × Int)) (sc : List (String × String))
    (ix : List (String × List String)) :
    Except String (Int × List (String × Int) × List (String × String) ×
      List (String × List String)) × List String :=
  match ts with
  | [] => (.ok (tc, rc, sc, ix), [])
  | t :: rest =>
    match o.countRows t with
    | .error e => (.error e, [countQuery t])
    | .ok c =>
      match o.tableCols t with
      | .error e => (.error e, [countQuery t, tableInfoQuery t])
      | .ok cols =>
        match o.indexList t with
        | .error e => (.error e, [countQuery t, tableInfoQuery t, indexListQuery t])
        | .ok idxs =>
          let r := infoLoop o rest (tc + 1) (assocInsert t c rc)
            (assocInsert t (schemaString cols) sc) (assocInsert t idxs ix)
          (r.1, countQuery t :: tableInfoQuery t :: indexListQuery t :: r.2)

def get_database_info (o : IntroOracle) (s : DbState) :
    (Except String DatabaseInfo × DbState) × List String :=
  if s.poisoned then ((.error lockErrMsg, s), [])
  else
    let s1 := { s with lockHeld := true }
    match s1.handle with
    | none => ((.error notInitMsg, { s1 with lockHeld := false }), [])
    | some _ =>
      match o.listTables with
      | .error e => ((.error e, { s1 with lockHeld := false }), [tablesQuery])
      | .ok ts =>
        match infoLoop o ts 0 [] [] [] with
        | (.error e, log) =>
          ((.error e, { s1 with lockHeld := false }), tablesQuery :: log)
        | (.ok (tc, rc, sc, ix), log) =>
          ((.ok { table_count := tc, row_count := rc, table_schemas := sc,
                  indices := ix },
            { s1 with lockHeld := false }), tablesQuery :: log)

/-! ## Auxiliary result observers -/

def exceptIsOk {ε α : Type} : Except ε α → Bool
  | .ok _ => true
  | .error _ => false

def exceptToOption {ε α : Type} : Except ε α → Option α
  | .ok a => some a
  | .error _ => none

/-- Modelled from the spec: the substitution rule of §4.4, stated in the
spec's own words — every character that is not alphanumeric or underscore
is substituted with underscore.  Compared below with the source-side
`replaceNonAlnum`. -/
def specSubstChar (c : Char) : Char :=
  if rustIsAlphanumeric c || c = '_' then c else '_'

/-! ## Concrete scenario used by witnesses and counterexample-style runs -/

/-- The process state before any call: healthy mutex, nobody holds it, no
connection installed. -/
def stateEmpty : DbState :=
  { poisoned := false, lockHeld := false, handle := none, nextConn := 0,
    db := EngineDb.empty }

def stateReady : DbState := (init_database stateEmpty).2

/-- A filesystem holding two small Parquet files of two rows each. -/
def fsDemo : String → Option ParquetFile := fun p =>
  if p = "sales report.parquet" then
    some { schema := [("amount", "INT")], nrows := 2 }
  else if p = "sales.parquet" then
    some { schema := [("amount", "INT")], nrows := 2 }
  else none

def stateSales : DbState :=
  (import_parquet fsDemo "sales report.parquet" stateReady).2

/-- An engine that answers `SELECT 1` with one integer column of one row
and rejects everything else. -/
def prepDemo : Prepare := fun q db =>
  if q = "SELECT 1" then
    (.ok { column_names := ["1"], raw_rows := [.ok (fun _ => .ok (.Integer 1))] },
     db)
  else (.error "parse error", db)

/-- A catalog oracle with one table. -/
def oracleDemo : IntroOracle :=
  { listTables := .ok ["t1"],
    countRows := fun _ => .ok 5,
    tableCols := fun _ => .ok [("a", "INT")],
    indexList := fun _ => .ok ["idx_t1_a"] }

/-- The `QueryResult` that `prepDemo` produces for `SELECT 1`. -/
def queryResDemo : QueryResult :=
  { column_names := ["1"], rows := [["1"]], execution_time_ms := 0,
    row_count := 1 }

def stateAfterQuery : DbState := (execute_query prepDemo "SELECT 1" stateReady).2

/-- The `DatabaseInfo` that `oracleDemo` yields. -/
def dbInfoDemo : DatabaseInfo :=
  { table_count := 1, row_count := [("t1", 5)],
    table_schemas := [("t1", "a INT")], indices := [("t1", ["idx_t1_a"])] }

/-! # Theorems -/

theorem utf8DecodeOne_length (b : Nat) (rest : List Nat) :
    (utf8DecodeOne b rest).2.length ≤ rest.length := by
  unfold utf8DecodeOne
  repeat' split
  all_goals simp_all
  all_goals omega

/-- C2: the fixed type-to-string policy of `execute_query`: null becomes
the literal `"NULL"`; an integer its decimal text; a real its default
textual float representation; text its lossy UTF-8 decoding (total — an
invalid byte becomes U+FFFD, never an error); a blob of `n` bytes the
literal `"BLOB(n)"` with the content never serialized (the output depends
on the length alone); a failed per-cell read the literal `"ERROR"` for
that cell only, the rest of the row still being produced in full. -/
theorem cell_stringification_policy :
    cellToString (.ok .Null) = "NULL"
  ∧ (∀ i : Int, cellToString (.ok (.Integer i)) = toString i)
  ∧ cellToString (.ok (.Integer (-42))) = "-42"
  ∧ (∀ t : String, cellToString (.ok (.Real t)) = t)
  ∧ (∀ bs : List Nat, cellToString (.ok (.Text bs)) = String.mk (utf8Lossy bs))
  ∧ utf8Lossy [0x68, 0xFF, 0x69] = ['h', replacementChar, 'i']
  ∧ (∀ bs : List Nat,
      cellToString (.ok (.Blob bs)) = "BLOB(" ++ toString bs.length ++ ")")
  ∧ (∀ e : Unit, cellToString (.error e) = "ERROR")
  ∧ (∀ (get : Nat → Except Unit ValueRef) (n : Nat),
      (rowToStrings get n).length = n)
  ∧ (∀ (get : Nat → Except Unit ValueRef) (n i : Nat),
      (rowToStrings get n)[i]? =
        if i < n then some (cellToString (get i)) else none) := by
  refine ⟨rfl, fun i => rfl, by decide, fun t => rfl, fun bs => rfl, by decide,
    fun bs => rfl, fun e => rfl, fun get n => by simp [rowToStrings],
    fun get n i => ?_⟩
  by_cases h : i < n
  · simp [rowToStrings, List.getElem?_map, List.getElem?_range, h]
  · simp only [rowToStrings, if_neg h]
    refine List.getElem?_eq_none ?_
    simp [Nat.le_of_not_lt h]

theorem collectRows_ok (rs : List (Except String (Nat → Except Unit ValueRef)))
    (n : Nat) (out : List (List String) × Int)
    (h : collectRows rs n = .ok out) :
    out.2 = (out.1.length : Int) ∧ ∀ r ∈ out.1, r.length = n := by
  induction rs generalizing out with
  | nil =>
    simp only [collectRows, Except.ok.injEq] at h
    subst h
    simp
  | cons r rest ih =>
    unfold collectRows at h
    cases r with
    | error e => simp at h
    | ok get =>
      cases hrec : collectRows rest n with
      | error e => rw [hrec] at h; simp at h
      | ok p =>
        rw [hrec] at h
        obtain ⟨acc, cnt⟩ := p
        simp only [Except.ok.injEq] at h
        subst h
        obtain ⟨ih1, ih2⟩ := ih (acc, cnt) hrec
        refine ⟨by simp at ih1 ⊢; omega, ?_⟩
        intro r hr
        rcases List.mem_cons.mp hr with hr | hr
        · subst hr; simp [rowToStrings]
        · exact ih2 r hr

/-- C3: every successfully returned `QueryResult` satisfies
`row_count = rows.length`, and each row has exactly one cell per
projected column name. -/
theorem query_result_shape (prep : Prepare) (q : String) (s : DbState)
    (res : QueryResult) (s2 : DbState)
    (h : execute_query prep q s = (.ok res, s2)) :
    res.row_count = (res.rows.length : Int) ∧
      ∀ r ∈ res.rows, r.length = res.column_names.length := by
  unfold execute_query at h
  dsimp only at h
  split at h
  · simp at h
  · split at h
    · simp at h
    · split at h
      · simp at h
      · rename_i stmt db1 heq
        split at h
        · simp at h
        · rename_i rows cnt hout
          simp only [Prod.mk.injEq, Except.ok.injEq] at h
          obtain ⟨hres, -⟩ := h
          subst hres
          simpa using collectRows_ok stmt.raw_rows stmt.column_names.length
            (rows, cnt) hout

theorem query_result_shape_witness :
    queryResDemo.row_count = (queryResDemo.rows.length : Int) ∧
      ∀ r ∈ queryResDemo.rows, r.length = queryResDemo.column_names.length :=
  query_result_shape prepDemo "SELECT 1" stateReady queryResDemo
    stateAfterQuery (by decide)

/-- C1: with no connection installed, each non-init operation returns the
distinguishable not-initialized error and leaves the handle slot absent. -/
theorem not_initialized_rejected :
    (∀ (fs : String → Option ParquetFile) (fp : String) (s : DbState),
        s.poisoned = false → s.handle = none →
        (import_parquet fs fp s).1 = .error notInitMsg ∧
          (import_parquet fs fp s).2.handle = none)
  ∧ (∀ (prep : Prepare) (q : String) (s : DbState),
        s.poisoned = false → s.handle = none →
        (execute_query prep q s).1 = .error notInitMsg ∧
          (execute_query prep q s).2.handle = none)
  ∧ (∀ (o : IntroOracle) (s : DbState),
        s.poisoned = false → s.handle = none →
        (get_database_info o s).1.1 = .error notInitMsg ∧
          ((get_database_info o s).1.2).handle = none)
  ∧ (∀ (t c : String) (s : DbState),
        s.poisoned = false → s.handle = none →
        (create_index t c s).1 = .error notInitMsg ∧
          (create_index t c s).2.handle = none) := by
  refine ⟨fun a b s hp hh => ?_, fun a b s hp hh => ?_, fun a s hp hh => ?_,
    fun a b s hp hh => ?_⟩ <;>
    · obtain ⟨p, l, hd, n, db⟩ := s
      simp only at hp hh
      subst hp
      subst hh
      exact ⟨rfl, rfl⟩

theorem not_initialized_rejected_witness :
    (import_parquet fsDemo "sales.parquet" stateEmpty).1 = .error notInitMsg ∧
    (execute_query prepDemo "SELECT 1" stateEmpty).1 = .error notInitMsg ∧
    (get_database_info oracleDemo stateEmpty).1.1 = .error notInitMsg ∧
    (create_index "t" "c" stateEmpty).1 = .error notInitMsg :=
  ⟨(not_initialized_rejected.1 fsDemo "sales.parquet" stateEmpty rfl rfl).1,
   (not_initialized_rejected.2.1 prepDemo "SELECT 1" stateEmpty rfl rfl).1,
   (not_initialized_rejected.2.2.1 oracleDemo stateEmpty rfl rfl).1,
   (not_initialized_rejected.2.2.2 "t" "c" stateEmpty rfl rfl).1⟩

/-- C8: the handle slot is written only by `init_database` (which installs
a fresh connection, overwriting any previous one); every other operation
preserves the slot exactly, on success and on error alike. -/
theorem handle_slot_mutated_only_by_init :
    (∀ s : DbState, (init_database s).2.handle =
        (if s.poisoned then s.handle else some s.nextConn))
  ∧ (∀ (fs : String → Option ParquetFile) (fp : String) (s : DbState),
        (import_parquet fs fp s).2.handle = s.handle)
  ∧ (∀ (prep : Prepare) (q : String) (s : DbState),
        (execute_query prep q s).2.handle = s.handle)
  ∧ (∀ (o : IntroOracle) (s : DbState),
        ((get_database_info o s).1.2).handle = s.handle)
  ∧ (∀ (t c : String) (s : DbState),
        (create_index t c s).2.handle = s.handle) := by
  refine ⟨?_, ?_, ?_, ?_, ?_⟩
  · intro s; unfold init_database; dsimp only; split <;> rfl
  · intro fs fp s; unfold import_parquet; dsimp only; repeat' split
    all_goals rfl
  · intro prep q s; unfold execute_query; dsimp only; repeat' split
    all_goals rfl
  · intro o s; unfold get_database_info; dsimp only; repeat' split
    all_goals rfl
  · intro t c s; unfold create_index; dsimp only; repeat' split
    all_goals rfl

/-- C9: every operation acquires the connection lock in a scoped fashion
and the lock is free again after the operation returns, on every exit path
(success, not-initialized, engine error, poisoned mutex). -/
theorem lock_released_on_every_exit :
    (∀ s : DbState, s.lockHeld = false →
        (init_database s).2.lockHeld = false)
  ∧ (∀ (fs : String → Option ParquetFile) (fp : String) (s : DbState),
        s.lockHeld = false → (import_parquet fs fp s).2.lockHeld = false)
  ∧ (∀ (prep : Prepare) (q : String) (s : DbState),
        s.lockHeld = false → (execute_query prep q s).2.lockHeld = false)
  ∧ (∀ (o : IntroOracle) (s : DbState),
        s.lockHeld = false → ((get_database_info o s).1.2).lockHeld = false)
  ∧ (∀ (t c : String) (s : DbState),
        s.lockHeld = false → (create_index t c s).2.lockHeld = false) := by
  refine ⟨?_, ?_, ?_, ?_, ?_⟩
  · intro s hl; unfold init_database; dsimp only; split <;> simp_all
  · intro fs fp s hl; unfold import_parquet; dsimp only; repeat' split
    all_goals simp_all
  · intro prep q s hl; unfold execute_query; dsimp only; repeat' split
    all_goals simp_all
  · intro o s hl; unfold get_database_info; dsimp only; repeat' split
    all_goals simp_all
  · intro t c s hl; unfold create_index; dsimp only; repeat' split
    all_goals simp_all

theorem lock_released_on_every_exit_witness :
    (init_database stateEmpty).2.lockHeld = false ∧
    (import_parquet fsDemo "sales.parquet" stateReady).2.lockHeld = false ∧
    (execute_query prepDemo "SELECT 1" stateReady).2.lockHeld = false ∧
    ((get_database_info oracleDemo stateReady).1.2).lockHeld = false ∧
    (create_index "sales_report" "amount" stateSales).2.lockHeld = false :=
  ⟨lock_released_on_every_exit.1 stateEmpty rfl,
   lock_released_on_every_exit.2.1 fsDemo "sales.parquet" stateReady (by decide),
   lock_released_on_every_exit.2.2.1 prepDemo "SELECT 1" stateReady (by decide),
   lock_released_on_every_exit.2.2.2.1 oracleDemo stateReady (by decide),
   lock_released_on_every_exit.2.2.2.2 "sales_report" "amount" stateSales
     (by decide)⟩

/-- C10: initialization ignores the caller-supplied database path — any
two paths produce identical results and identical states — and a
successful init always installs a fresh empty in-memory database (the
db-layer initializer has no path parameter, so no file-backed database can
ever be opened). -/
theorem init_ignores_path :
    (∀ (p1 p2 : String) (s : DbState),
        api_init_database p1 s = api_init_database p2 s)
  ∧ (∀ (p : String) (s : DbState),
        (api_init_database p s).2.db =
            (if s.poisoned then s.db else EngineDb.empty) ∧
          (api_init_database p s).2.handle =
            (if s.poisoned then s.handle else some s.nextConn)) := by
  refine ⟨fun p1 p2 s => rfl, fun p s => ⟨?_, ?_⟩⟩ <;>
    · unfold api_init_database init_database; dsimp only; split <;> rfl

/-- C5: the bulk loader's derived table name is the file's stem with every
character that is not alphanumeric and not underscore replaced by
underscore (the source's single replacement pass coincides with the spec's
character-wise substitution), and in particular importing
`"sales report.parquet"` creates the table `sales_report`. -/
theorem derived_table_name :
    (∀ st : String, replaceNonAlnum st = String.mk (st.data.map specSubstChar))
  ∧ fileStem "sales report.parquet" = some "sales report"
  ∧ replaceNonAlnum "sales report" = "sales_report"
  ∧ (import_parquet fsDemo "sales report.parquet" stateReady).1 =
      .ok "Imported 2 rows into table sales_report" := by
  have hchar : sanitizeChar = specSubstChar := by
    funext c
    unfold sanitizeChar specSubstChar
    by_cases h1 : rustIsAlphanumeric c <;> by_cases h2 : c = '_' <;>
      simp [h1, h2]
  exact ⟨fun st => by rw [replaceNonAlnum, hchar], by decide, by decide,
    by decide⟩

/-- C4: `import_parquet_file` is declared with a caller-supplied
`table_name`, but the db-layer loader it forwards to accepts only the file
path (the two-argument call in `api.rs` does not even match the
one-argument `import_parquet` in `db.rs`) and always derives the table
name from the file's stem.  Evaluated at a concrete ready state: importing
`"sales.parquet"` creates the table `sales` regardless of any supplied
name such as `mytable`, which is never created. -/
theorem import_ignores_supplied_table_name :
    (import_parquet fsDemo "sales.parquet" stateReady).1 =
      .ok "Imported 2 rows into table sales"
  ∧ (findTable (import_parquet fsDemo "sales.parquet" stateReady).2.db
      "sales").isSome = true
  ∧ findTable (import_parquet fsDemo "sales.parquet" stateReady).2.db
      "mytable" = none := by
  exact ⟨by decide, by decide, by decide⟩

theorem engineCreateIndex_ok_spec (iname tname cname : String) (db db2 : EngineDb)
    (h : engineCreateIndex iname tname cname db = .ok db2) :
    hasIndexName db2 iname = true ∧ (findTable db2 tname).isSome = true := by
  unfold engineCreateIndex at h
  split at h
  · simp at h
  · rename_i tb htb
    split at h
    · simp at h
    · split at h
      · simp only [Except.ok.injEq] at h
        subst h
        have hmem : tb ∈ db.tables := List.mem_of_find?_eq_some htb
        have hname : tb.name = tname := by simpa using List.find?_some htb
        constructor
        · unfold hasIndexName
          rw [List.any_eq_true]
          refine ⟨{ tb with indexes := tb.indexes ++ [iname] },
            List.mem_map.mpr ⟨tb, hmem, by simp [hname]⟩, ?_⟩
          simp [List.contains]
        · unfold findTable
          exact List.find?_isSome.mpr
            ⟨{ tb with indexes := tb.indexes ++ [iname] },
             List.mem_map.mpr ⟨tb, hmem, by simp [hname]⟩, by simp [hname]⟩
      · simp at h

theorem engineCreateIndex_again (iname tname cname : String) (db db2 : EngineDb)
    (h : engineCreateIndex iname tname cname db = .ok db2) :
    engineCreateIndex iname tname cname db2 =
      .error ("Index with name " ++ iname ++ " already exists") := by
  obtain ⟨hhas, hfind⟩ := engineCreateIndex_ok_spec iname tname cname db db2 h
  obtain ⟨tb2, htb2⟩ := Option.isSome_iff_exists.mp hfind
  unfold engineCreateIndex
  rw [htb2, hhas]
  simp

/-- C6: `create_index` deterministically names the index
`idx_<table>_<column>`: a successful call reports exactly that name and
records it in the engine catalog, and an immediately repeated identical
call fails with the engine's duplicate-name error, surfaced as an error
value; any engine failure is surfaced verbatim. -/
theorem create_index_naming_and_collision (t c : String) (s : DbState)
    (hp : s.poisoned = false) :
    (∀ m : String, (create_index t c s).1 = .ok m →
        m = "Created index " ++ ("idx_" ++ t ++ "_" ++ c) ++ " on " ++ t ++
            "." ++ c ∧
        hasIndexName (create_index t c s).2.db ("idx_" ++ t ++ "_" ++ c) =
          true ∧
        (create_index t c (create_index t c s).2).1 =
          .error ("Index with name " ++ ("idx_" ++ t ++ "_" ++ c) ++
            " already exists"))
  ∧ (∀ e : String,
        engineCreateIndex ("idx_" ++ t ++ "_" ++ c) t c s.db = .error e →
        s.handle.isSome = true →
        (create_index t c s).1 = .error e) := by
  obtain ⟨p, l, hd, n, db⟩ := s
  simp only at hp
  subst hp
  constructor
  · intro m hm
    cases hd with
    | none => simp [create_index, notInitMsg] at hm
    | some v =>
      cases heng : engineCreateIndex ("idx_" ++ t ++ "_" ++ c) t c db with
      | error e => simp [create_index, heng] at hm
      | ok db2 =>
        have hspec := engineCreateIndex_ok_spec _ _ _ _ _ heng
        simp only [create_index] at hm ⊢
        rw [heng] at hm ⊢
        simp only [Bool.false_eq_true, if_false] at hm ⊢
        simp only [Except.ok.injEq] at hm
        refine ⟨hm.symm, by simpa using hspec.1, ?_⟩
        simp [create_index, engineCreateIndex_again _ _ _ _ _ heng]
  · intro e heng hh
    cases hd with
    | none => simp at hh
    | some v => simp [create_index, heng]

theorem create_index_naming_and_collision_witness :
    hasIndexName (create_index "sales_report" "amount" stateSales).2.db
      "idx_sales_report_amount" = true ∧
    (create_index "sales_report" "amount"
        (create_index "sales_report" "amount" stateSales).2).1 =
      .error "Index with name idx_sales_report_amount already exists" := by
  have h := (create_index_naming_and_collision "sales_report" "amount"
    stateSales (by decide)).1
    "Created index idx_sales_report_amount on sales_report.amount" (by decide)
  exact ⟨h.2.1, h.2.2⟩

theorem assocLookup_insert_self {α : Type} (k : String) (v : α)
    (l : List (String × α)) :
    assocLookup k (assocInsert k v l) = some v := by
  induction l with
  | nil => simp [assocInsert, assocLookup]
  | cons p rest ih =>
    obtain ⟨k0, v0⟩ := p
    by_cases h : k0 = k
    · simp [assocInsert, assocLookup, h]
    · simp [assocInsert, assocLookup, h, ih]

theorem assocLookup_insert_other {α : Type} (k0 k : String) (v : α)
    (l : List (String × α)) (h : k0 ≠ k) :
    assocLookup k (assocInsert k0 v l) = assocLookup k l := by
  induction l with
  | nil => simp [assocInsert, assocLookup, h]
  | cons p rest ih =>
    obtain ⟨k1, v1⟩ := p
    unfold assocInsert
    by_cases h1 : k1 = k0
    · subst h1
      simp only [if_pos rfl]
      unfold assocLookup
      simp [h]
    · simp only [if_neg h1]
      unfold assocLookup
      by_cases h2 : k1 = k
      · simp [h2]
      · simp [h2, ih]

theorem infoLoop_isOk (o : IntroOracle) (ts : List String) :
    ∀ (tc : Int) (rc : List (String × Int)) (sc : List (String × String))
      (ix : List (String × List String)),
    exceptIsOk (infoLoop o ts tc rc sc ix).1 =
      ts.all (fun t => exceptIsOk (o.countRows t) &&
        (exceptIsOk (o.tableCols t) && exceptIsOk (o.indexList t))) := by
  induction ts with
  | nil => intro tc rc sc ix; rfl
  | cons t rest ih =>
    intro tc rc sc ix
    unfold infoLoop
    cases h1 : o.countRows t with
    | error e => simp [exceptIsOk, h1]
    | ok c =>
      cases h2 : o.tableCols t with
      | error e => simp [exceptIsOk, h1, h2]
      | ok cols =>
        cases h3 : o.indexList t with
        | error e => simp [exceptIsOk, h1, h2, h3]
        | ok idxs =>
          simp only [exceptIsOk, h1, h2, h3, List.all_cons, Bool.true_and]
          exact ih _ _ _ _

theorem infoLoop_ok (o : IntroOracle) (ts : List String) :
    ∀ (tc : Int) (rc : List (String × Int)) (sc : List (String × String))
      (ix : List (String × List String)) (tc2 : Int)
      (rc2 : List (String × Int)) (sc2 : List (String × String))
      (ix2 : List (String × List String)) (log : List String),
    infoLoop o ts tc rc sc ix = (.ok (tc2, rc2, sc2, ix2), log) →
    tc2 = tc + ts.length ∧
    log = ts.flatMap (fun t =>
      [countQuery t, tableInfoQuery t, indexListQuery t]) ∧
    ∀ t0 : String,
      (t0 ∈ ts →
        assocLookup t0 rc2 = exceptToOption (o.countRows t0) ∧
        assocLookup t0 sc2 =
          Option.map schemaString (exceptToOption (o.tableCols t0)) ∧
        assocLookup t0 ix2 = exceptToOption (o.indexList t0)) ∧
      (t0 ∉ ts →
        assocLookup t0 rc2 = assocLookup t0 rc ∧
        assocLookup t0 sc2 = assocLookup t0 sc ∧
        assocLookup t0 ix2 = assocLookup t0 ix) := by
  induction ts with
  | nil =>
    intro tc rc sc ix tc2 rc2 sc2 ix2 log h
    simp only [infoLoop, Prod.mk.injEq, Except.ok.injEq] at h
    obtain ⟨⟨h1, h2, h3, h4⟩, h5⟩ := h
    subst h1; subst h2; subst h3; subst h4; subst h5
    simp
  | cons t rest ih =>
    intro tc rc sc ix tc2 rc2 sc2 ix2 log h
    unfold infoLoop at h
    cases h1 : o.countRows t with
    | error e => rw [h1] at h; simp at h
    | ok c =>
      rw [h1] at h
      cases h2 : o.tableCols t with
      | error e => rw [h2] at h; simp at h
      | ok cols =>
        rw [h2] at h
        cases h3 : o.indexList t with
        | error e => rw [h3] at h; simp at h
        | ok idxs =>
          rw [h3] at h
          dsimp only at h
          rcases hrec : infoLoop o rest (tc + 1) (assocInsert t c rc)
            (assocInsert t (schemaString cols) sc) (assocInsert t idxs ix)
            with ⟨res, lg⟩
          rw [hrec] at h
          simp only [Prod.mk.injEq] at h
          obtain ⟨h4, h5⟩ := h
          cases res with
          | error e => simp at h4
          | ok p =>
            obtain ⟨ptc, prc, psc, pix⟩ := p
            simp only [Except.ok.injEq, Prod.mk.injEq] at h4
            obtain ⟨g1, g2, g3, g4⟩ := h4
            subst g1; subst g2; subst g3; subst g4
            obtain ⟨ih1, ih2, ih3⟩ := ih (tc + 1) (assocInsert t c rc)
              (assocInsert t (schemaString cols) sc) (assocInsert t idxs ix)
              ptc prc psc pix lg hrec
            refine ⟨by rw [ih1]; simp only [List.length_cons]; push_cast; ring,
              ?_, ?_⟩
            · subst h5
              simp [ih2, List.flatMap_cons]
            · intro t0
              constructor
              · intro hmem
                by_cases hin : t0 ∈ rest
                · exact (ih3 t0).1 hin
                · have ht0 : t0 = t := by
                    rcases List.mem_cons.mp hmem with h | h
                    · exact h
                    · exact absurd h hin
                  subst ht0
                  obtain ⟨m1, m2, m3⟩ := (ih3 t0).2 hin
                  rw [m1, m2, m3]
                  rw [assocLookup_insert_self, assocLookup_insert_self,
                    assocLookup_insert_self]
                  simp [exceptToOption, h1, h2, h3]
              · intro hnot
                have hne : t0 ≠ t := fun hEq => hnot (hEq ▸ List.mem_cons_self t rest)
                have hnin : t0 ∉ rest := fun hEq => hnot (List.mem_cons_of_mem t hEq)
                obtain ⟨m1, m2, m3⟩ := (ih3 t0).2 hnin
                rw [m1, m2, m3]
                rw [assocLookup_insert_other t t0 _ _ (Ne.symm hne),
                  assocLookup_insert_other t t0 _ _ (Ne.symm hne),
                  assocLookup_insert_other t t0 _ _ (Ne.symm hne)]
                exact ⟨rfl, rfl, rfl⟩

/-- C7: the catalog snapshot first issues the table-list query; on its
failure the call aborts with that error having issued nothing else.  With
the table list in hand, the call succeeds exactly when every table's three
sub-queries succeed (so any single sub-query failure yields an error and no
partial `DatabaseInfo`), and a successful snapshot has issued, after the
table-list query, exactly three queries per table — `COUNT(*)`, the
columns-metadata query and the index-list query — in catalog iteration
order, with the results accumulated into maps keyed by table name. -/
theorem snapshot_queries_and_abort (o : IntroOracle) (s : DbState)
    (hp : s.poisoned = false) (hh : s.handle.isSome = true) :
    (∀ e : String, o.listTables = .error e →
        (get_database_info o s).1.1 = .error e ∧
        (get_database_info o s).2 = [tablesQuery])
  ∧ (∀ ts : List String, o.listTables = .ok ts →
      exceptIsOk (get_database_info o s).1.1 =
        ts.all (fun t => exceptIsOk (o.countRows t) &&
          (exceptIsOk (o.tableCols t) && exceptIsOk (o.indexList t))) ∧
      ∀ info : DatabaseInfo, (get_database_info o s).1.1 = .ok info →
        (get_database_info o s).2 =
          tablesQuery :: ts.flatMap (fun t =>
            [countQuery t, tableInfoQuery t, indexListQuery t]) ∧
        info.table_count = (ts.length : Int) ∧
        ∀ t ∈ ts,
          assocLookup t info.row_count = exceptToOption (o.countRows t) ∧
          assocLookup t info.table_schemas =
            Option.map schemaString (exceptToOption (o.tableCols t)) ∧
          assocLookup t info.indices = exceptToOption (o.indexList t)) := by
  obtain ⟨p, l, hd, n, db⟩ := s
  simp only at hp hh
  subst hp
  cases hd with
  | none => simp at hh
  | some v =>
    constructor
    · intro e he
      constructor <;> simp [get_database_info, he]
    · intro ts hts
      have hok := infoLoop_isOk o ts 0 [] [] []
      rcases hloop : infoLoop o ts 0 [] [] [] with ⟨res, lg⟩
      rw [hloop] at hok
      constructor
      · simp only [get_database_info, hts]
        rw [hloop]
        cases res with
        | error e => simpa [exceptIsOk] using hok
        | ok q => simpa [exceptIsOk] using hok
      · intro info hinfo
        cases res with
        | error e =>
          have hred : (get_database_info o
              ⟨false, l, some v, n, db⟩).1.1 = .error e := by
            simp [get_database_info, hts, hloop]
          rw [hred] at hinfo
          exact absurd hinfo (by simp)
        | ok q =>
          obtain ⟨tc, rc, sc, ix⟩ := q
          have hred : (get_database_info o
              ⟨false, l, some v, n, db⟩).1.1 = .ok ⟨tc, rc, sc, ix⟩ := by
            simp [get_database_info, hts, hloop]
          rw [hred] at hinfo
          have hinfo2 : ({ table_count := tc, row_count := rc,
                           table_schemas := sc,
                           indices := ix } : DatabaseInfo) = info :=
            Except.ok.inj hinfo
          subst hinfo2
          obtain ⟨htc, hlog, hmaps⟩ :=
            infoLoop_ok o ts 0 [] [] [] tc rc sc ix lg hloop
          refine ⟨?_, by simpa using htc, fun t ht => (hmaps t).1 ht⟩
          have hlg : (get_database_info o
              ⟨false, l, some v, n, db⟩).2 = tablesQuery :: lg := by
            simp [get_database_info, hts, hloop]
          rw [hlg, hlog]

theorem snapshot_queries_and_abort_witness :
    exceptIsOk (get_database_info oracleDemo stateReady).1.1 =
      (["t1"] : List String).all (fun t =>
        exceptIsOk (oracleDemo.countRows t) &&
          (exceptIsOk (oracleDemo.tableCols t) &&
            exceptIsOk (oracleDemo.indexList t))) ∧
    (get_database_info oracleDemo stateReady).2 =
      tablesQuery :: (["t1"] : List String).flatMap (fun t =>
        [countQuery t, tableInfoQuery t, indexListQuery t]) ∧
    dbInfoDemo.table_count = ((["t1"] : List String).length : Int) ∧
    assocLookup "t1" dbInfoDemo.row_count =
      exceptToOption (oracleDemo.countRows "t1") := by
  have h := (snapshot_queries_and_abort oracleDemo stateReady (by decide)
    (by decide)).2 ["t1"] rfl
  have h2 := h.2 dbInfoDemo (by decide)
  exact ⟨h.1, h2.1, h2.2.1, (h2.2.2 "t1" (by decide)).1⟩

end FlutterRustDb
